import Mathlib

/-!
Verification development for the `kraw` Reddit pagination engine
(`src/kraw/reddit.py`).  The code under study is `Reddit._paginate_items`
(a cursor-walking fetch loop), the "more"-comment expansion pair
`_paginate_more_items` / `_process_post_comments`, and the backoff /
countdown helper `_pagination_countdown_timer`.

Modelling conventions:
* The external collaborators (the HTTP transport reached through
  `Reddit.on_session`, and the karmakaze `Sanitise` functions) are
  parameters of the embedding: a transport is a function from the request
  index and the request URL to an `Except`-valued response, a sanitiser
  maps an opaque response to a list of items, and `Sanitise.pagination_id`
  maps a response to an optional cursor string.
* The Python `while` loop is embedded as a fuel-indexed recursion.
  `PagOutcome.fuelOut` exposes the loop state at every loop entry, so
  quantifying over all fuels observes every iteration of a run,
  including non-terminating ones.
* Machine-visible effects (requests issued, backoff durations drawn) are
  recorded in the state as traces, so theorems can speak about the exact
  sequence of requests a run performs.
* `random.randint(1, 5)` is modelled by its documented semantics:
  `1 + r % 5` for an arbitrary natural `r` drawn from a raw random
  stream supplied by the environment.
* `_pagination_countdown_timer` is modelled against a deterministic
  clock counting centiseconds: each `asyncio.sleep(0.01)` advances the
  clock by one centisecond and the emissions it would perform are
  collected into a list.
-/

/-- Environment of external collaborators consumed by the pagination
loop: the transport (`Reddit.on_session`, indexed by how many requests
have been issued so far, modelling a stateful server), the page
sanitiser, the cursor extractor (`Sanitise.pagination_id`) and a raw
random stream feeding `random.randint`. -/
structure PagEnv (ε ρ α : Type) where
  transport : Nat → String → Except ε ρ
  sanitiser : ρ → List α
  paginationId : ρ → Option String
  rng : Nat → Nat

/-- The mutable state of one `_paginate_items` run: the accumulated
items (`all_items`), the rolling cursor (`last_item_id`), plus traces of
the requests issued and the backoff durations drawn. -/
structure PagState (α : Type) where
  allItems : List α
  lastItemId : Option String
  reqCount : Nat
  sleepCount : Nat
  requests : List String
  durations : List Nat
deriving Repr, DecidableEq

/-- Which exit of the `while` loop fired: the `break` on
`len(all_items) == limit`, the `break` on an empty page, or the loop
condition `len(all_items) < limit` being false at entry. -/
inductive StopReason where
  | limitHit
  | exhausted
  | condFalse
deriving Repr, DecidableEq

/-- Result of running the loop with a given amount of fuel: normal
return (`done`), a propagated transport exception (`raised`; the state
records the requests issued, but the Python function raises, so the
accumulated items are never returned to the caller), or fuel exhaustion
with the loop still running (`fuelOut`). -/
inductive PagOutcome (ε α : Type) where
  | done (reason : StopReason) (st : PagState α)
  | raised (e : ε) (st : PagState α)
  | fuelOut (st : PagState α)
deriving Repr, DecidableEq

/-- The loop state carried by any outcome. -/
def PagOutcome.state {ε α : Type} : PagOutcome ε α → PagState α
  | .done _ st => st
  | .raised _ st => st
  | .fuelOut st => st

/-- Python truthiness of the `last_item_id` value: `None` and the empty
string are falsy. -/
def pyTruthy : Option String → Bool
  | none => false
  | some s => !(s == "")

/-- `random.randint lo hi` on a raw draw `r`: an integer in `[lo, hi]`
inclusive, uniform when `r` is uniform. -/
def randint (lo hi r : Nat) : Nat := lo + r % (hi + 1 - lo)

/-- The endpoint built at the top of each iteration
(`f"..?after={last_item_id}&count={len(all_items)}" if last_item_id
else endpoint`). -/
def buildRequest (endpoint : String) (lastItemId : Option String) (count : Nat) : String :=
  if pyTruthy lastItemId then
    endpoint ++ "?after=" ++ lastItemId.getD "" ++ "&count=" ++ toString count
  else endpoint

/-- Fuel-indexed embedding of the `while len(all_items) < limit` loop of
`Reddit._paginate_items`.  One fuel unit is one loop iteration.  In the
`is_post_comments` branch the Python code assigns the un-awaited
coroutine `self._process_post_comments(response=response)` to `items`
and nothing else happens in that iteration: the branch neither appends
items, nor checks for an empty page, nor updates the cursor, nor
sleeps, so the embedding recurses with only the request trace
extended. -/
def paginateLoop {ε ρ α : Type} (env : PagEnv ε ρ α) (endpoint : String) (limit : Nat)
    (isPostComments : Bool) : Nat → PagState α → PagOutcome ε α
  | 0, st => .fuelOut st
  | Nat.succ fuel, st =>
    if st.allItems.length < limit then
      let req := buildRequest endpoint st.lastItemId st.allItems.length
      match env.transport st.reqCount req with
      | .error e =>
          .raised e { st with reqCount := st.reqCount + 1, requests := st.requests ++ [req] }
      | .ok resp =>
          let st1 : PagState α :=
            { st with reqCount := st.reqCount + 1, requests := st.requests ++ [req] }
          if isPostComments then
            paginateLoop env endpoint limit isPostComments fuel st1
          else
            let items := env.sanitiser resp
            if items.isEmpty then .done .exhausted st1
            else
              let itemsToLimit := limit - st1.allItems.length
              let st2 : PagState α :=
                { st1 with
                  allItems := st1.allItems ++ items.take itemsToLimit,
                  lastItemId := env.paginationId resp }
              if st2.allItems.length == limit then .done .limitHit st2
              else
                let d := randint 1 5 (env.rng st2.sleepCount)
                let st3 : PagState α :=
                  { st2 with
                    sleepCount := st2.sleepCount + 1,
                    durations := st2.durations ++ [d] }
                paginateLoop env endpoint limit isPostComments fuel st3
    else .done .condFalse st

/-- The initial state of `_paginate_items`: empty accumulator,
`last_item_id = None`, empty traces. -/
def initState (α : Type) : PagState α := ⟨[], none, 0, 0, [], []⟩

/-- `Reddit._paginate_items`, run from its initial state with the given
fuel. -/
def paginateItems {ε ρ α : Type} (env : PagEnv ε ρ α) (endpoint : String) (limit : Nat)
    (isPostComments : Bool) (fuel : Nat) : PagOutcome ε α :=
  paginateLoop env endpoint limit isPostComments fuel (initState α)

/-- Items of the `i`-th page, for a server that answers the `i`-th
request with `pg i`. -/
def pageItems {ε ρ α : Type} (env : PagEnv ε ρ α) (pg : Nat → ρ) (i : Nat) : List α :=
  env.sanitiser (pg i)

/-- Concatenation of the sanitised items of the first `k` pages, in
delivery order. -/
def joinPages {ε ρ α : Type} (env : PagEnv ε ρ α) (pg : Nat → ρ) (k : Nat) : List α :=
  (List.range k).flatMap (pageItems env pg)

/-- The cursor held by the loop at entry of iteration `k`: absent before
the first page, otherwise the one extracted from the previous page. -/
def lastCursor {ε ρ α : Type} (env : PagEnv ε ρ α) (pg : Nat → ρ) : Nat → Option String
  | 0 => none
  | Nat.succ k => env.paginationId (pg k)

/-- Number of items accumulated after processing `k` pages, truncation
to `limit` included. -/
def accCount {ε ρ α : Type} (env : PagEnv ε ρ α) (pg : Nat → ρ) (limit k : Nat) : Nat :=
  min limit (joinPages env pg k).length

/-- The URL of the `k`-th request (0-indexed) of a run against pages
`pg`. -/
def reqAt {ε ρ α : Type} (env : PagEnv ε ρ α) (pg : Nat → ρ) (endpoint : String)
    (limit k : Nat) : String :=
  buildRequest endpoint (lastCursor env pg k) (accCount env pg limit k)

/-- The first `k` request URLs of a run against pages `pg`. -/
def reqList {ε ρ α : Type} (env : PagEnv ε ρ α) (pg : Nat → ρ) (endpoint : String)
    (limit k : Nat) : List String :=
  (List.range k).map (reqAt env pg endpoint limit)

/-- The `k`-th backoff duration drawn from the raw random stream. -/
def durAt {ε ρ α : Type} (env : PagEnv ε ρ α) (k : Nat) : Nat := randint 1 5 (env.rng k)

/-- Closed form of the loop state at entry of iteration `k`, for a run
in which every page so far was delivered, non-empty, and below the
limit. -/
def stateAt {ε ρ α : Type} (env : PagEnv ε ρ α) (pg : Nat → ρ) (endpoint : String)
    (limit k : Nat) : PagState α :=
  ⟨(joinPages env pg k).take limit, lastCursor env pg k, k, k,
   reqList env pg endpoint limit k, (List.range k).map (durAt env)⟩

/-- A Python dict, modelled as ordered key-value entries; iterating the
dict (as `more_items_ids.extend(item)` does) yields its keys in
order. -/
structure PyDict where
  entries : List (String × String)
deriving Repr, DecidableEq

/-- The keys of a dict in iteration order. -/
def PyDict.keys (d : PyDict) : List String := d.entries.map Prod.fst

/-- First-match lookup in a dict's entry list. -/
def entriesLookup : List (String × String) → String → Option String
  | [], _ => none
  | (k, v) :: rest, key => if k == key then some v else entriesLookup rest key

/-- Models the external `Sanitise.kind` classifier: it reads the
discriminant tag (`"kind"`) carried on each child node. -/
def saniKind (d : PyDict) : Option String := entriesLookup d.entries "kind"

/-- A Python runtime error surfaced by the embedding: looking up a name
that is bound in no enclosing scope raises `NameError`. -/
inductive PyRunError where
  | nameError (missing : String)
deriving Repr, DecidableEq

/-- One step of the partitioning loop of `_process_post_comments`: a
`t1` child is sanitised and appended to the item list; a `more` child is
passed to `more_items_ids.extend(item)`, which iterates the dict and so
appends its keys; anything else is skipped. -/
def commentsStep {α : Type} (sanitiseComment : PyDict → α)
    (acc : List α × List String) (item : PyDict) : List α × List String :=
  if saniKind item == some "t1" then (acc.1 ++ [sanitiseComment item], acc.2)
  else if saniKind item == some "more" then (acc.1, acc.2 ++ item.keys)
  else acc

/-- The partitioning loop of `_process_post_comments` over the page's
children. -/
def commentsPartition {α : Type} (sanitiseComment : PyDict → α)
    (children : List PyDict) : List α × List String :=
  children.foldl (commentsStep sanitiseComment) ([], [])

/-- `Reddit._process_post_comments` on a page's children.  When
`more_items_ids` is non-empty the source evaluates
`self._paginate_more_items(session=session, ..., endpoint=endpoint)`,
but the names `session` and `endpoint` are bound in no enclosing scope
of that method, so evaluating the call's arguments raises `NameError`
before any supplementary request can be issued. -/
def processPostComments {α : Type} (sanitiseComment : PyDict → α)
    (children : List PyDict) : Except PyRunError (List α) :=
  let p := commentsPartition sanitiseComment children
  if p.2.isEmpty then .ok p.1 else .error (.nameError "session")

/-- `Reddit._paginate_more_items`, which receives the transport and the
endpoint as explicit arguments: one supplementary request per
continuation identifier, in order, each to `endpoint ++ "&comment=" ++
id`, appending the sanitised comments of each response.  Returns the
final item list and the trace of supplementary requests issued. -/
def paginateMoreItems {ε ρ α : Type} (transport : String → Except ε ρ)
    (saniComments : ρ → List α) :
    List String → String → List α → Except ε (List α × List String)
  | [], _, fetched => .ok (fetched, [])
  | moreId :: rest, endpoint, fetched =>
    match transport (endpoint ++ "&comment=" ++ moreId) with
    | .error e => .error e
    | .ok resp =>
      match paginateMoreItems transport saniComments rest endpoint
              (fetched ++ saniComments resp) with
      | .error e => .error e
      | .ok (f, t) => .ok (f, (endpoint ++ "&comment=" ++ moreId) :: t)

/-- Two-digit zero-padded rendering of the centisecond field, as
produced by the format specifier `{remaining_milliseconds:02}`. -/
def fmt2 (n : Nat) : String := if n < 10 then "0" ++ toString n else toString n

/-- The countdown text emitted by `_pagination_countdown_timer` when the
remaining time is `secs` seconds plus `centis` centiseconds. -/
def countdownText (current overall secs centis : Nat) : String :=
  "[cyan]" ++ toString current ++ "[/] (of [cyan]" ++ toString overall
    ++ "[/]) items fetched so far. Resuming in [cyan]" ++ toString secs ++ "."
    ++ fmt2 centis ++ "[/] seconds"

/-- The emissions of the countdown loop when `r` centiseconds remain
before the deadline: one emission per 10 ms tick, none once the
deadline has elapsed. -/
def countdownTicks (current overall : Nat) : Nat → List String
  | 0 => []
  | Nat.succ r =>
      countdownText current overall ((r + 1) / 100) ((r + 1) % 100)
        :: countdownTicks current overall r

/-- `Reddit._pagination_countdown_timer` against the deterministic
centisecond clock: the list of texts emitted during a wait of
`duration` seconds. -/
def paginationCountdownTimer (duration current overall : Nat) : List String :=
  countdownTicks current overall (duration * 100)

/-- A concrete raw page used to instantiate the abstract response type
in witnesses. -/
structure RawPage where
  items : List Nat
  cursor : Option String
deriving Repr, DecidableEq

/-- Concrete page sequence: page `i` carries the single item `i` and a
constant extractable cursor. -/
def wPage (i : Nat) : RawPage := ⟨[i], some "c"⟩

/-- Concrete environment whose transport always succeeds with `wPage`. -/
def wEnv : PagEnv Unit RawPage Nat :=
  ⟨fun i _ => .ok (wPage i), RawPage.items, RawPage.cursor, fun _ => 0⟩

/-- Concrete page sequence that is exhausted after one page. -/
def w2Page (i : Nat) : RawPage := if i < 1 then ⟨[i], some "c"⟩ else ⟨[], none⟩

/-- Concrete environment whose source is exhausted after one page. -/
def w2Env : PagEnv Unit RawPage Nat :=
  ⟨fun i _ => .ok (w2Page i), RawPage.items, RawPage.cursor, fun _ => 0⟩

/-- Concrete environment whose transport fails from the second request
on. -/
def w3Env : PagEnv Unit RawPage Nat :=
  ⟨fun i _ => if i < 1 then .ok ⟨[0], some "c"⟩ else .error (),
   RawPage.items, RawPage.cursor, fun _ => 0⟩

/-- Concrete environment for the missing-cursor scenario: the first page
has a cursor, the second page has none, later pages are immaterial. -/
def w4Env : PagEnv Unit RawPage Nat :=
  ⟨fun i _ =>
      .ok (if i = 0 then ⟨[1], some "c1"⟩ else if i = 1 then ⟨[2], none⟩ else ⟨[3], some "x"⟩),
   RawPage.items, RawPage.cursor, fun _ => 0⟩

/-- A comment child of kind `t1`. -/
def t1Child (tag : String) : PyDict := ⟨[("kind", "t1"), ("data", tag)]⟩

/-- A `more` placeholder child carrying two continuation identifiers. -/
def moreChild : PyDict := ⟨[("kind", "more"), ("children", "id1 id2")]⟩

/-- A comment page with three direct comments and one `more`
placeholder. -/
def c6Children : List PyDict := [t1Child "a", t1Child "b", t1Child "c", moreChild]

/-- Unfolding equation for one iteration of the loop. -/
theorem paginateLoop_succ_eq {ε ρ α : Type} (env : PagEnv ε ρ α) (endpoint : String)
    (limit : Nat) (b : Bool) (fuel : Nat) (st : PagState α) :
    paginateLoop env endpoint limit b (fuel + 1) st
      = if st.allItems.length < limit then
          match env.transport st.reqCount (buildRequest endpoint st.lastItemId st.allItems.length) with
          | .error e =>
              .raised e { st with reqCount := st.reqCount + 1,
                                  requests := st.requests ++ [buildRequest endpoint st.lastItemId st.allItems.length] }
          | .ok resp =>
              let st1 : PagState α :=
                { st with reqCount := st.reqCount + 1,
                          requests := st.requests ++ [buildRequest endpoint st.lastItemId st.allItems.length] }
              if b then paginateLoop env endpoint limit b fuel st1
              else
                let items := env.sanitiser resp
                if items.isEmpty then .done .exhausted st1
                else
                  let st2 : PagState α :=
                    { st1 with
                      allItems := st1.allItems ++ items.take (limit - st1.allItems.length),
                      lastItemId := env.paginationId resp }
                  if st2.allItems.length == limit then .done .limitHit st2
                  else
                    paginateLoop env endpoint limit b fuel
                      { st2 with sleepCount := st2.sleepCount + 1,
                                 durations := st2.durations ++ [randint 1 5 (env.rng st2.sleepCount)] }
        else .done .condFalse st := rfl

/-- One page appends its items to the delivered concatenation. -/
theorem joinPages_succ {ε ρ α : Type} (env : PagEnv ε ρ α) (pg : Nat → ρ) (k : Nat) :
    joinPages env pg (k + 1) = joinPages env pg k ++ pageItems env pg k := by
  simp [joinPages, List.range_succ]

/-- Length bookkeeping for one more page. -/
theorem joinPages_length_succ {ε ρ α : Type} (env : PagEnv ε ρ α) (pg : Nat → ρ) (k : Nat) :
    (joinPages env pg (k + 1)).length
      = (joinPages env pg k).length + (pageItems env pg k).length := by
  rw [joinPages_succ]; simp

/-- The delivered concatenation only grows with more pages. -/
theorem joinPages_length_mono {ε ρ α : Type} (env : PagEnv ε ρ α) (pg : Nat → ρ)
    {k m : Nat} (h : k ≤ m) :
    (joinPages env pg k).length ≤ (joinPages env pg m).length := by
  induction m with
  | zero => simp_all
  | succ m ih =>
    rcases Nat.lt_or_ge k (m + 1) with hk | hk
    · have := ih (Nat.lt_succ_iff.mp hk)
      rw [joinPages_succ]
      simp only [List.length_append]
      omega
    · have : k = m + 1 := Nat.le_antisymm h hk
      subst this
      exact le_rfl

/-- With every page non-empty, `k` pages deliver at least `k` items. -/
theorem joinPages_length_ge {ε ρ α : Type} (env : PagEnv ε ρ α) (pg : Nat → ρ)
    (hne : ∀ j, pageItems env pg j ≠ []) (k : Nat) :
    k ≤ (joinPages env pg k).length := by
  induction k with
  | zero => simp
  | succ k ih =>
    have h1 : 1 ≤ (pageItems env pg k).length :=
      List.length_pos.mpr (hne k)
    have := joinPages_length_succ env pg k
    omega

/-- The closed-form state after zero pages is the initial state. -/
theorem stateAt_zero {ε ρ α : Type} (env : PagEnv ε ρ α) (pg : Nat → ρ) (endpoint : String)
    (limit : Nat) :
    stateAt env pg endpoint limit 0 = initState α := by
  simp [stateAt, joinPages, reqList, initState, lastCursor]

/-- The request trace grows by one request per page. -/
theorem reqList_succ {ε ρ α : Type} (env : PagEnv ε ρ α) (pg : Nat → ρ) (endpoint : String)
    (limit k : Nat) :
    reqList env pg endpoint limit (k + 1)
      = reqList env pg endpoint limit k ++ [reqAt env pg endpoint limit k] := by
  simp [reqList, List.range_succ]

/-- Indexing the closed-form request trace. -/
theorem reqList_get {ε ρ α : Type} (env : PagEnv ε ρ α) (pg : Nat → ρ) (endpoint : String)
    (limit K n : Nat) (h : n < (reqList env pg endpoint limit K).length) :
    (reqList env pg endpoint limit K).get ⟨n, h⟩ = reqAt env pg endpoint limit n := by
  simp [reqList]

/-- One iteration from the closed-form state, when the delivered page is
non-empty and the limit is still out of reach: the loop sleeps and
continues at the next closed-form state. -/
theorem paginateLoop_step_continue {ε ρ α : Type} (env : PagEnv ε ρ α) (pg : Nat → ρ)
    (endpoint : String) (limit : Nat) (fuel K : Nat)
    (htrK : env.transport K (reqAt env pg endpoint limit K) = .ok (pg K))
    (hne : pageItems env pg K ≠ [])
    (hlt : (joinPages env pg (K + 1)).length < limit) :
    paginateLoop env endpoint limit false (fuel + 1) (stateAt env pg endpoint limit K)
      = paginateLoop env endpoint limit false fuel (stateAt env pg endpoint limit (K + 1)) := by
  have hsucc := joinPages_length_succ env pg K
  have hltK : (joinPages env pg K).length < limit := by omega
  have hlen : ((joinPages env pg K).take limit).length = (joinPages env pg K).length := by
    simp [List.length_take]; omega
  have hcount : ((joinPages env pg K).take limit).length = accCount env pg limit K := by
    rw [hlen]; simp [accCount]; omega
  rw [paginateLoop_succ_eq]
  rw [if_pos (by simpa [stateAt, hlen] using hltK)]
  simp only [stateAt, hcount]
  rw [show buildRequest endpoint (lastCursor env pg K) (accCount env pg limit K)
        = reqAt env pg endpoint limit K from rfl]
  rw [htrK]
  simp only [Bool.false_eq_true, if_false]
  rw [if_neg (by simpa [pageItems, List.isEmpty_iff] using hne)]
  have hextend : (joinPages env pg K).take limit
      ++ (env.sanitiser (pg K)).take (limit - ((joinPages env pg K).take limit).length)
      = (joinPages env pg (K + 1)).take limit := by
    rw [joinPages_succ, List.take_append_eq_append_take, hlen]
    rfl
  rw [hcount] at hextend
  rw [hextend]
  have hlen2 : ((joinPages env pg (K + 1)).take limit).length
      = (joinPages env pg (K + 1)).length := by
    simp [List.length_take]; omega
  rw [if_neg (by simp only [beq_iff_eq, hlen2]; omega)]
  rw [show (List.map (durAt env) (List.range K) ++ [randint 1 5 (env.rng K)])
        = List.map (durAt env) (List.range (K + 1)) by simp [List.range_succ, durAt]]
  rw [← reqList_succ]
  rw [show lastCursor env pg (K + 1) = env.paginationId (pg K) from rfl]

/-- Running from the start is the same as running from the closed-form
state, as long as every page before `K` was delivered, non-empty, and
kept the accumulator below the limit. -/
theorem paginateLoop_advance {ε ρ α : Type} (env : PagEnv ε ρ α) (pg : Nat → ρ)
    (endpoint : String) (limit : Nat) (K : Nat)
    (htr : ∀ j, j < K → ∀ r, env.transport j r = .ok (pg j))
    (hne : ∀ j, j < K → pageItems env pg j ≠ [])
    (hlt : (joinPages env pg K).length < limit) :
    ∀ fuel, paginateLoop env endpoint limit false (K + fuel) (initState α)
      = paginateLoop env endpoint limit false fuel (stateAt env pg endpoint limit K) := by
  induction K with
  | zero =>
    intro fuel
    rw [stateAt_zero]
    simp
  | succ K ih =>
    intro fuel
    have hltK : (joinPages env pg K).length < limit := by
      have := joinPages_length_succ env pg K
      omega
    have step := paginateLoop_step_continue env pg endpoint limit fuel K
      (htr K (Nat.lt_succ_self K) _) (hne K (Nat.lt_succ_self K)) hlt
    calc paginateLoop env endpoint limit false (K + 1 + fuel) (initState α)
        = paginateLoop env endpoint limit false (K + (fuel + 1)) (initState α) := by
          rw [show K + 1 + fuel = K + (fuel + 1) by omega]
      _ = paginateLoop env endpoint limit false (fuel + 1) (stateAt env pg endpoint limit K) :=
          ih (fun j hj r => htr j (Nat.lt_succ_of_lt hj) r)
             (fun j hj => hne j (Nat.lt_succ_of_lt hj)) hltK (fuel + 1)
      _ = paginateLoop env endpoint limit false fuel (stateAt env pg endpoint limit (K + 1)) :=
          step

/-- One iteration from the closed-form state when the delivered page is
empty: the loop breaks with the exhaustion exit, returning the
accumulator unchanged. -/
theorem paginateLoop_step_exhaust {ε ρ α : Type} (env : PagEnv ε ρ α) (pg : Nat → ρ)
    (endpoint : String) (limit : Nat) (fuel K : Nat)
    (htrK : env.transport K (reqAt env pg endpoint limit K) = .ok (pg K))
    (hK : pageItems env pg K = [])
    (hltK : (joinPages env pg K).length < limit) :
    paginateLoop env endpoint limit false (fuel + 1) (stateAt env pg endpoint limit K)
      = .done .exhausted
          { stateAt env pg endpoint limit K with
            reqCount := K + 1,
            requests := reqList env pg endpoint limit (K + 1) } := by
  have hlen : ((joinPages env pg K).take limit).length = (joinPages env pg K).length := by
    simp [List.length_take]; omega
  have hcount : ((joinPages env pg K).take limit).length = accCount env pg limit K := by
    rw [hlen]; simp [accCount]; omega
  rw [paginateLoop_succ_eq]
  rw [if_pos (by simpa [stateAt, hlen] using hltK)]
  simp only [stateAt, hcount]
  rw [show buildRequest endpoint (lastCursor env pg K) (accCount env pg limit K)
        = reqAt env pg endpoint limit K from rfl]
  rw [htrK]
  simp only [Bool.false_eq_true, if_false]
  rw [if_pos (by simpa [pageItems, List.isEmpty_iff] using hK)]
  rw [← reqList_succ]

/-- One iteration from the closed-form state when the delivered page
reaches the limit: the loop breaks with the limit exit and the
accumulator truncated to exactly `limit` items. -/
theorem paginateLoop_step_limit {ε ρ α : Type} (env : PagEnv ε ρ α) (pg : Nat → ρ)
    (endpoint : String) (limit : Nat) (fuel K : Nat)
    (htrK : env.transport K (reqAt env pg endpoint limit K) = .ok (pg K))
    (hne : pageItems env pg K ≠ [])
    (hltK : (joinPages env pg K).length < limit)
    (hge : limit ≤ (joinPages env pg (K + 1)).length) :
    paginateLoop env endpoint limit false (fuel + 1) (stateAt env pg endpoint limit K)
      = .done .limitHit
          { stateAt env pg endpoint limit K with
            allItems := (joinPages env pg (K + 1)).take limit,
            lastItemId := lastCursor env pg (K + 1),
            reqCount := K + 1,
            requests := reqList env pg endpoint limit (K + 1) } := by
  have hlen : ((joinPages env pg K).take limit).length = (joinPages env pg K).length := by
    simp [List.length_take]; omega
  have hcount : ((joinPages env pg K).take limit).length = accCount env pg limit K := by
    rw [hlen]; simp [accCount]; omega
  rw [paginateLoop_succ_eq]
  rw [if_pos (by simpa [stateAt, hlen] using hltK)]
  simp only [stateAt, hcount]
  rw [show buildRequest endpoint (lastCursor env pg K) (accCount env pg limit K)
        = reqAt env pg endpoint limit K from rfl]
  rw [htrK]
  simp only [Bool.false_eq_true, if_false]
  rw [if_neg (by simpa [pageItems, List.isEmpty_iff] using hne)]
  have hextend : (joinPages env pg K).take limit
      ++ (env.sanitiser (pg K)).take (limit - accCount env pg limit K)
      = (joinPages env pg (K + 1)).take limit := by
    rw [← hcount, joinPages_succ, List.take_append_eq_append_take, hlen]
    rfl
  rw [hextend]
  have hlen2 : ((joinPages env pg (K + 1)).take limit).length = limit := by
    simp [List.length_take]; omega
  rw [if_pos (by simp only [beq_iff_eq, hlen2])]
  rw [← reqList_succ]
  rw [show lastCursor env pg (K + 1) = env.paginationId (pg K) from rfl]

/-- One iteration from the closed-form state when the transport fails:
the exception propagates unchanged; the request was issued and is
recorded, but no items escape to the caller. -/
theorem paginateLoop_step_error {ε ρ α : Type} (env : PagEnv ε ρ α) (pg : Nat → ρ)
    (endpoint : String) (limit : Nat) (fuel K : Nat) (e : ε)
    (htrK : env.transport K (reqAt env pg endpoint limit K) = .error e)
    (hltK : (joinPages env pg K).length < limit) :
    paginateLoop env endpoint limit false (fuel + 1) (stateAt env pg endpoint limit K)
      = .raised e
          { stateAt env pg endpoint limit K with
            reqCount := K + 1,
            requests := reqList env pg endpoint limit (K + 1) } := by
  have hlen : ((joinPages env pg K).take limit).length = (joinPages env pg K).length := by
    simp [List.length_take]; omega
  have hcount : ((joinPages env pg K).take limit).length = accCount env pg limit K := by
    rw [hlen]; simp [accCount]; omega
  rw [paginateLoop_succ_eq]
  rw [if_pos (by simpa [stateAt, hlen] using hltK)]
  simp only [stateAt, hcount]
  rw [show buildRequest endpoint (lastCursor env pg K) (accCount env pg limit K)
        = reqAt env pg endpoint limit K from rfl]
  rw [htrK]
  rw [← reqList_succ]

/-- The accumulator never exceeds the limit: the truncation
`items[:items_to_limit]` keeps every reachable state within bounds, for
any environment, any branch, and any amount of fuel. -/
theorem paginateLoop_len_le {ε ρ α : Type} (env : PagEnv ε ρ α) (endpoint : String)
    (limit : Nat) (b : Bool) :
    ∀ fuel st, st.allItems.length ≤ limit →
      ((paginateLoop env endpoint limit b fuel st).state).allItems.length ≤ limit := by
  intro fuel
  induction fuel with
  | zero => intro st h; simpa [paginateLoop, PagOutcome.state] using h
  | succ fuel ih =>
    intro st h
    rw [paginateLoop_succ_eq]
    by_cases hcond : st.allItems.length < limit
    · rw [if_pos hcond]
      cases htr : env.transport st.reqCount
          (buildRequest endpoint st.lastItemId st.allItems.length) with
      | error e => simpa [PagOutcome.state] using h
      | ok resp =>
        simp only
        by_cases hb : b
        · rw [if_pos hb]
          exact ih _ (by simpa using h)
        · rw [if_neg hb]
          by_cases hemp : (env.sanitiser resp).isEmpty
          · rw [if_pos hemp]
            simpa [PagOutcome.state] using h
          · rw [if_neg hemp]
            have hlen2 : (st.allItems
                ++ (env.sanitiser resp).take (limit - st.allItems.length)).length ≤ limit := by
              simp [List.length_take]
              omega
            by_cases heq : (st.allItems
                ++ (env.sanitiser resp).take (limit - st.allItems.length)).length = limit
            · rw [if_pos (by simpa using heq)]
              simpa [PagOutcome.state] using hlen2
            · rw [if_neg (by simpa using heq)]
              exact ih _ (by simpa using hlen2)
    · rw [if_neg hcond]
      simpa [PagOutcome.state] using h

/-- When the loop returns normally it does so either with exactly
`limit` items or through the empty-page exit. -/
theorem paginateLoop_done_reason {ε ρ α : Type} (env : PagEnv ε ρ α) (endpoint : String)
    (limit : Nat) (b : Bool) :
    ∀ fuel st r st', paginateLoop env endpoint limit b fuel st = .done r st' →
      st.allItems.length ≤ limit →
      st'.allItems.length = limit ∨ r = .exhausted := by
  intro fuel
  induction fuel with
  | zero => intro st r st' heq; simp [paginateLoop] at heq
  | succ fuel ih =>
    intro st r st' heq h
    rw [paginateLoop_succ_eq] at heq
    by_cases hcond : st.allItems.length < limit
    · rw [if_pos hcond] at heq
      cases htr : env.transport st.reqCount
          (buildRequest endpoint st.lastItemId st.allItems.length) with
      | error e => rw [htr] at heq; simp at heq
      | ok resp =>
        rw [htr] at heq
        simp only at heq
        by_cases hb : b
        · rw [if_pos hb] at heq
          exact ih _ _ _ heq (by simpa using h)
        · rw [if_neg hb] at heq
          by_cases hemp : (env.sanitiser resp).isEmpty
          · rw [if_pos hemp] at heq
            simp only [PagOutcome.done.injEq] at heq
            right
            exact heq.1.symm
          · rw [if_neg hemp] at heq
            have hlen2 : (st.allItems
                ++ (env.sanitiser resp).take (limit - st.allItems.length)).length ≤ limit := by
              simp [List.length_take]
              omega
            by_cases heq2 : (st.allItems
                ++ (env.sanitiser resp).take (limit - st.allItems.length)).length = limit
            · rw [if_pos (by simpa using heq2)] at heq
              simp only [PagOutcome.done.injEq] at heq
              left
              rw [← heq.2]
              exact heq2
            · rw [if_neg (by simpa using heq2)] at heq
              exact ih _ _ _ heq (by simpa using hlen2)
    · rw [if_neg hcond] at heq
      simp only [PagOutcome.done.injEq] at heq
      left
      rw [← heq.2]
      omega

/-- Every backoff duration recorded during a run lies in `[1, 5]`,
because each is drawn through `randint 1 5`. -/
theorem paginateLoop_durations_range {ε ρ α : Type} (env : PagEnv ε ρ α) (endpoint : String)
    (limit : Nat) (b : Bool) :
    ∀ fuel st, (∀ d ∈ st.durations, 1 ≤ d ∧ d ≤ 5) →
      ∀ d ∈ ((paginateLoop env endpoint limit b fuel st).state).durations, 1 ≤ d ∧ d ≤ 5 := by
  intro fuel
  induction fuel with
  | zero => intro st h; simpa [paginateLoop, PagOutcome.state] using h
  | succ fuel ih =>
    intro st h
    rw [paginateLoop_succ_eq]
    by_cases hcond : st.allItems.length < limit
    · rw [if_pos hcond]
      cases htr : env.transport st.reqCount
          (buildRequest endpoint st.lastItemId st.allItems.length) with
      | error e => simpa [PagOutcome.state] using h
      | ok resp =>
        simp only
        by_cases hb : b
        · rw [if_pos hb]
          exact ih _ (by simpa using h)
        · rw [if_neg hb]
          by_cases hemp : (env.sanitiser resp).isEmpty
          · rw [if_pos hemp]
            simpa [PagOutcome.state] using h
          · rw [if_neg hemp]
            by_cases heq2 : (st.allItems
                ++ (env.sanitiser resp).take (limit - st.allItems.length)).length = limit
            · rw [if_pos (by simpa using heq2)]
              simpa [PagOutcome.state] using h
            · rw [if_neg (by simpa using heq2)]
              refine ih _ ?_
              intro d hd
              simp only [List.mem_append, List.mem_singleton] at hd
              rcases hd with hd | hd
              · exact h d hd
              · subst hd
                constructor
                · simp [randint]
                · have : env.rng st.sleepCount % 5 < 5 := Nat.mod_lt _ (by omega)
                  simp [randint]
                  omega
    · rw [if_neg hcond]
      simpa [PagOutcome.state] using h

/-- In the `is_post_comments` branch every iteration leaves the
accumulator, the cursor, the sleep counter and the duration trace
untouched and issues one more request to the bare base endpoint; with a
positive limit the loop can therefore never satisfy either exit
condition. -/
theorem paginateLoop_post_comments {ε ρ α : Type} (env : PagEnv ε ρ α) (endpoint : String)
    (limit : Nat) (pg : Nat → ρ)
    (hpos : 0 < limit)
    (htr : ∀ i, env.transport i endpoint = .ok (pg i)) :
    ∀ fuel k, paginateLoop env endpoint limit true fuel
        ⟨[], none, k, 0, List.replicate k endpoint, []⟩
      = .fuelOut ⟨[], none, k + fuel, 0, List.replicate (k + fuel) endpoint, []⟩ := by
  intro fuel
  induction fuel with
  | zero => intro k; simp [paginateLoop]
  | succ fuel ih =>
    intro k
    rw [paginateLoop_succ_eq]
    simp only [List.length_nil]
    rw [if_pos hpos]
    rw [show buildRequest endpoint none 0 = endpoint from rfl]
    rw [htr k]
    simp only [if_true]
    rw [show (List.replicate k endpoint ++ [endpoint]) = List.replicate (k + 1) endpoint from
      (List.replicate_succ' k endpoint).symm]
    rw [ih (k + 1)]
    rw [show k + 1 + fuel = k + (fuel + 1) by omega]

/-- A successful lookup means the key is among the dict's keys. -/
theorem entriesLookup_mem_keys {l : List (String × String)} {key v : String}
    (h : entriesLookup l key = some v) : key ∈ l.map Prod.fst := by
  induction l with
  | nil => simp [entriesLookup] at h
  | cons p rest ih =>
    rw [entriesLookup] at h
    by_cases hk : p.1 == key
    · simp at hk
      simp [hk]
    · simp [hk] at h
      simp [ih h]

/-- The identifier list collected by the partitioning loop is the
concatenated key lists of the `more` children, in order. -/
theorem commentsPartition_snd {α : Type} (sanitiseComment : PyDict → α) :
    ∀ (children : List PyDict) (a : List α) (b : List String),
      (children.foldl (commentsStep sanitiseComment) (a, b)).2
        = b ++ (children.filter (fun c => saniKind c == some "more")).flatMap PyDict.keys := by
  intro children
  induction children with
  | nil => intro a b; simp
  | cons c cs ih =>
    intro a b
    rw [List.foldl_cons]
    by_cases h1 : saniKind c == some "t1"
    · have h2 : ¬ (saniKind c == some "more") = true := by
        simp at h1 ⊢
        simp [h1]
      rw [show commentsStep sanitiseComment (a, b) c = (a ++ [sanitiseComment c], b) by
        simp [commentsStep, h1]]
      rw [ih]
      simp [List.filter_cons, h2]
    · by_cases h2 : saniKind c == some "more"
      · rw [show commentsStep sanitiseComment (a, b) c = (a, b ++ c.keys) by
          simp [commentsStep, h1, h2]]
        rw [ih]
        simp [List.filter_cons, h2]
      · rw [show commentsStep sanitiseComment (a, b) c = (a, b) by
          simp [commentsStep, h1, h2]]
        rw [ih]
        simp [List.filter_cons, h2]

/-- The countdown emits exactly one text per remaining centisecond and
stops at the deadline. -/
theorem countdownTicks_length (current overall : Nat) :
    ∀ r, (countdownTicks current overall r).length = r := by
  intro r
  induction r with
  | zero => rfl
  | succ r ih => simp [countdownTicks, ih]

/-- Every emitted text is the countdown text for some remaining time
within the wait. -/
theorem countdownTicks_mem (current overall : Nat) :
    ∀ r s, s ∈ countdownTicks current overall r →
      ∃ j, 0 < j ∧ j ≤ r ∧ s = countdownText current overall (j / 100) (j % 100) := by
  intro r
  induction r with
  | zero => intro s h; simp [countdownTicks] at h
  | succ r ih =>
    intro s h
    rw [countdownTicks] at h
    rcases List.mem_cons.mp h with h | h
    · exact ⟨r + 1, by omega, le_refl _, h⟩
    · obtain ⟨j, hj0, hjr, hs⟩ := ih s h
      exact ⟨j, hj0, by omega, hs⟩

/-- The countdown text carries the current count, the overall count, and
the remaining time rendered with a two-digit fractional field. -/
theorem countdownText_contains (current overall secs centis : Nat) :
    (toString current).data <:+: (countdownText current overall secs centis).data
    ∧ (toString overall).data <:+: (countdownText current overall secs centis).data
    ∧ (toString secs ++ "." ++ fmt2 centis).data
        <:+: (countdownText current overall secs centis).data := by
  refine ⟨⟨"[cyan]".data, ("[/] (of [cyan]" ++ toString overall
    ++ "[/]) items fetched so far. Resuming in [cyan]" ++ toString secs ++ "."
    ++ fmt2 centis ++ "[/] seconds").data, ?_⟩,
    ⟨("[cyan]" ++ toString current ++ "[/] (of [cyan]").data,
     ("[/]) items fetched so far. Resuming in [cyan]" ++ toString secs ++ "."
      ++ fmt2 centis ++ "[/] seconds").data, ?_⟩,
    ⟨("[cyan]" ++ toString current ++ "[/] (of [cyan]" ++ toString overall
      ++ "[/]) items fetched so far. Resuming in [cyan]").data,
     ("[/] seconds").data, ?_⟩⟩ <;>
  · simp [countdownText, String.data_append]

/-- The centisecond field always prints with exactly two digits. -/
theorem fmt2_two_digits : ∀ n, n < 100 → (fmt2 n).length = 2 := by decide

/-- The witness source delivers the page sequence `[0], [1], [2], ...`,
so its concatenation is an initial segment of the naturals. -/
theorem wEnv_joinPages : ∀ k, joinPages wEnv wPage k = List.range k := by
  intro k
  induction k with
  | zero => rfl
  | succ k ih =>
    rw [joinPages_succ, ih, List.range_succ]
    rfl

/-- C1: for every `limit > 0` and every source that, page by page, makes
at least `limit` items available (each page non-empty with an
extractable cursor until the limit is reached), `_paginate_items`
returns a sequence of exactly `limit` items, in the order the pages
delivered them, with no duplicates.  Delivery order is captured by the
result being the `limit`-prefix of the concatenation of the delivered
pages, and freedom from duplicates is inherited from the cursor-walking
source delivering pairwise-distinct items. -/
theorem paginate_returns_limit_items {ε ρ α : Type} (env : PagEnv ε ρ α) (pg : Nat → ρ)
    (endpoint : String) (limit : Nat)
    (hpos : 0 < limit)
    (htr : ∀ j r, env.transport j r = .ok (pg j))
    (hne : ∀ j, pageItems env pg j ≠ [])
    (hcur : ∀ j, pyTruthy (env.paginationId (pg j)) = true)
    (hnd : ∀ k, (joinPages env pg k).Nodup) :
    ∃ fuel st, paginateItems env endpoint limit false fuel = .done .limitHit st
      ∧ (∃ K, st.allItems = (joinPages env pg K).take limit)
      ∧ st.allItems.length = limit
      ∧ st.allItems.Nodup := by
  have hex : ∃ k, limit ≤ (joinPages env pg k).length :=
    ⟨limit, joinPages_length_ge env pg hne limit⟩
  classical
  obtain ⟨K, hKspec, hKmin⟩ :
      ∃ K, limit ≤ (joinPages env pg K).length
        ∧ ∀ m, m < K → ¬ limit ≤ (joinPages env pg m).length :=
    ⟨Nat.find hex, Nat.find_spec hex, fun m hm => Nat.find_min hex hm⟩
  have hKpos : K ≠ 0 := by
    intro h0
    rw [h0] at hKspec
    simp [joinPages] at hKspec
    omega
  obtain ⟨K', rfl⟩ := Nat.exists_eq_succ_of_ne_zero hKpos
  simp only [Nat.succ_eq_add_one] at hKspec hKmin
  have hlt : (joinPages env pg K').length < limit :=
    Nat.lt_of_not_le (hKmin K' (Nat.lt_succ_self K'))
  refine ⟨K' + 1,
    { stateAt env pg endpoint limit K' with
      allItems := (joinPages env pg (K' + 1)).take limit,
      lastItemId := lastCursor env pg (K' + 1),
      reqCount := K' + 1,
      requests := reqList env pg endpoint limit (K' + 1) }, ?_, ⟨K' + 1, rfl⟩, ?_, ?_⟩
  · rw [paginateItems,
      paginateLoop_advance env pg endpoint limit K' (fun j _ r => htr j r)
        (fun j _ => hne j) hlt 1]
    exact paginateLoop_step_limit env pg endpoint limit 0 K' (htr K' _) (hne K') hlt hKspec
  · simp [List.length_take]
    omega
  · exact List.Nodup.sublist (List.take_sublist _ _) (hnd (K' + 1))

/-- C1 witness: the theorem applied to the concrete source delivering
one fresh item per page. -/
theorem paginate_returns_limit_items_witness :
    ∃ fuel st, paginateItems wEnv "ep" 2 false fuel = .done .limitHit st
      ∧ (∃ K, st.allItems = (joinPages wEnv wPage K).take 2)
      ∧ st.allItems.length = 2
      ∧ st.allItems.Nodup :=
  paginate_returns_limit_items wEnv wPage "ep" 2 (by decide)
    (fun j r => rfl)
    (fun j => by simp [pageItems, wEnv, wPage])
    (fun j => rfl)
    (fun k => by rw [wEnv_joinPages]; exact List.nodup_range k)

/-- C2: at every observation point of a `_paginate_items` run the
accumulator holds at most `limit` items (`fuelOut` states expose every
loop entry, `done` and `raised` states the exits), and a normal return
happens exactly at `len(all_items) == limit` or on an empty sanitised
page (the `exhausted` exit). -/
theorem paginate_length_invariant {ε ρ α : Type} (env : PagEnv ε ρ α) (endpoint : String)
    (limit : Nat) (b : Bool) (fuel : Nat) :
    ((paginateItems env endpoint limit b fuel).state).allItems.length ≤ limit
    ∧ (∀ r st', paginateItems env endpoint limit b fuel = .done r st' →
        st'.allItems.length = limit ∨ r = .exhausted) := by
  constructor
  · exact paginateLoop_len_le env endpoint limit b fuel (initState α) (by simp [initState])
  · intro r st' heq
    exact paginateLoop_done_reason env endpoint limit b fuel (initState α) r st' heq
      (by simp [initState])

/-- C2 witness: the invariant and the exit classification at a concrete
run that stops on the limit. -/
theorem paginate_length_invariant_witness :
    ((paginateItems wEnv "ep" 1 false 2).state).allItems.length ≤ 1
    ∧ (([0] : List Nat).length = 1 ∨ StopReason.limitHit = StopReason.exhausted) := by
  have h := paginate_length_invariant wEnv "ep" 1 false 2
  exact ⟨h.1, h.2 .limitHit ⟨[0], some "c", 1, 0, ["ep"], []⟩ rfl⟩

/-- C3: in a pagination run the first request uses the base endpoint
unchanged, and the `n`-th request (`n ≥ 2`, index `n` starting at 1
here) embeds as `after` exactly the cursor extracted from the previous
response and as `count` the number of items accumulated so far. -/
theorem paginate_request_cursor_and_count {ε ρ α : Type} (env : PagEnv ε ρ α) (pg : Nat → ρ)
    (endpoint : String) (limit K : Nat)
    (htr : ∀ j r, env.transport j r = .ok (pg j))
    (hne : ∀ j, j < K → pageItems env pg j ≠ [])
    (hlt : (joinPages env pg K).length < limit) :
    ((paginateItems env endpoint limit false K).state).requests.length = K
    ∧ (∀ h0 : 0 < ((paginateItems env endpoint limit false K).state).requests.length,
        ((paginateItems env endpoint limit false K).state).requests.get ⟨0, h0⟩ = endpoint)
    ∧ (∀ n c (hn : n + 1 < ((paginateItems env endpoint limit false K).state).requests.length),
        env.paginationId (pg n) = some c → c ≠ "" →
        ((paginateItems env endpoint limit false K).state).requests.get ⟨n + 1, hn⟩
          = endpoint ++ "?after=" ++ c ++ "&count="
              ++ toString (joinPages env pg (n + 1)).length) := by
  have hrun : paginateItems env endpoint limit false K
      = .fuelOut (stateAt env pg endpoint limit K) := by
    rw [paginateItems]
    simpa using paginateLoop_advance env pg endpoint limit K (fun j _ r => htr j r) hne hlt 0
  rw [hrun]
  simp only [PagOutcome.state, stateAt]
  have hlenreq : (reqList env pg endpoint limit K).length = K := by simp [reqList]
  refine ⟨hlenreq, ?_, ?_⟩
  · intro h0
    rw [reqList_get]
    simp [reqAt, accCount, buildRequest, lastCursor, pyTruthy, joinPages]
  · intro n c hn hc hcne
    rw [reqList_get]
    have hnK : n + 1 < K := by omega
    have hjoin : (joinPages env pg (n + 1)).length < limit := by
      have := joinPages_length_mono env pg (le_of_lt hnK)
      omega
    simp [reqAt, lastCursor, hc, buildRequest, pyTruthy, accCount,
      Nat.min_eq_right (le_of_lt hjoin), beq_eq_false_iff_ne, hcne]

/-- C3 witness: the request trace of a concrete two-page run, with the
second request carrying the first page's cursor and the accumulated
count. -/
theorem paginate_request_cursor_and_count_witness :
    ((paginateItems wEnv "ep" 5 false 2).state).requests.length = 2
    ∧ ((paginateItems wEnv "ep" 5 false 2).state).requests.get ⟨0, by decide⟩ = "ep"
    ∧ ((paginateItems wEnv "ep" 5 false 2).state).requests.get ⟨1, by decide⟩
        = "ep" ++ "?after=" ++ "c" ++ "&count=" ++ toString (joinPages wEnv wPage 1).length := by
  have h := paginate_request_cursor_and_count wEnv wPage "ep" 5 2
    (fun j r => rfl) (fun j _ => by simp [pageItems, wEnv, wPage]) (by decide)
  exact ⟨h.1, h.2.1 (by decide), h.2.2 0 "c" (by decide) rfl (by decide)⟩

/-- C4: when the limit exceeds what the source holds, `_paginate_items`
terminates normally (no exception) as soon as a page sanitises to zero
items, returning exactly the items accumulated from the earlier
pages. -/
theorem paginate_exhaustion_returns_available {ε ρ α : Type} (env : PagEnv ε ρ α)
    (pg : Nat → ρ) (endpoint : String) (limit K : Nat)
    (htr : ∀ j r, env.transport j r = .ok (pg j))
    (hne : ∀ j, j < K → pageItems env pg j ≠ [])
    (hK : pageItems env pg K = [])
    (hlt : (joinPages env pg K).length < limit) :
    ∃ st, paginateItems env endpoint limit false (K + 1) = .done .exhausted st
      ∧ st.allItems = joinPages env pg K := by
  refine ⟨{ stateAt env pg endpoint limit K with
            reqCount := K + 1,
            requests := reqList env pg endpoint limit (K + 1) }, ?_, ?_⟩
  · rw [paginateItems,
      paginateLoop_advance env pg endpoint limit K (fun j _ r => htr j r) hne hlt 1]
    exact paginateLoop_step_exhaust env pg endpoint limit 0 K (htr K _) hK hlt
  · simp only [stateAt]
    exact List.take_of_length_le (le_of_lt hlt)

/-- C4 witness: the theorem applied to a source exhausted after one
page of one item, requested with limit 5. -/
theorem paginate_exhaustion_returns_available_witness :
    ∃ st, paginateItems w2Env "ep" 5 false (1 + 1) = .done .exhausted st
      ∧ st.allItems = joinPages w2Env w2Page 1 :=
  paginate_exhaustion_returns_available w2Env w2Page "ep" 5 1
    (fun j r => rfl)
    (fun j hj => by simp [pageItems, w2Env, w2Page, hj])
    (by decide)
    (by decide)

/-- C5: when the transport raises on the second (or any later) request,
`_paginate_items` propagates that very error to its caller — the
outcome is the raised exception, not a normal return, so the items
accumulated from the earlier pages are discarded — and no retry happens:
exactly one request beyond the successful ones is ever issued, for any
surplus of fuel. -/
theorem paginate_transport_error_propagates {ε ρ α : Type} (env : PagEnv ε ρ α)
    (pg : Nat → ρ) (endpoint : String) (limit K : Nat) (e : ε)
    (hK : 1 ≤ K)
    (htr : ∀ j, j < K → ∀ r, env.transport j r = .ok (pg j))
    (hne : ∀ j, j < K → pageItems env pg j ≠ [])
    (hlt : (joinPages env pg K).length < limit)
    (herr : ∀ r, env.transport K r = .error e) :
    ∀ fuel, ∃ st, paginateItems env endpoint limit false (K + (fuel + 1)) = .raised e st
      ∧ st.requests.length = K + 1 := by
  intro fuel
  refine ⟨{ stateAt env pg endpoint limit K with
            reqCount := K + 1,
            requests := reqList env pg endpoint limit (K + 1) }, ?_, ?_⟩
  · rw [paginateItems,
      paginateLoop_advance env pg endpoint limit K htr hne hlt (fuel + 1)]
    exact paginateLoop_step_error env pg endpoint limit fuel K e (herr _) hlt
  · simp [reqList]

/-- C5 witness: the theorem applied to a transport that succeeds on the
first request and fails from the second on. -/
theorem paginate_transport_error_propagates_witness :
    ∃ st, paginateItems w3Env "ep" 5 false (1 + (0 + 1)) = .raised () st
      ∧ st.requests.length = 1 + 1 :=
  paginate_transport_error_propagates w3Env (fun _ => ⟨[0], some "c"⟩) "ep" 5 1 ()
    (le_refl 1)
    (fun j hj r => by simp [w3Env]; omega)
    (fun j hj => by simp [pageItems, w3Env])
    (by decide)
    (fun r => rfl)
    0

/-- C6: evaluation of the comment path at the page with three `t1`
comments and one `more` placeholder.  The partitioning does collect the
three direct comments, but `_process_post_comments` then evaluates the
unbound names `session` and `endpoint` and raises `NameError` instead
of performing the expansion; `_paginate_more_items` itself, handed the
transport and endpoint explicitly, does issue exactly one supplementary
request per identifier, in order, to `endpoint ++ "&comment=" ++ id`,
which is the behaviour the claim describes for the whole fetcher. -/
theorem process_post_comments_more_page_eval :
    processPostComments (fun d => d) c6Children = .error (.nameError "session")
    ∧ (commentsPartition (fun d => d) c6Children).1
        = [t1Child "a", t1Child "b", t1Child "c"]
    ∧ paginateMoreItems (fun r => (.ok (r, 0) : Except Unit (String × Nat)))
        (fun p => [p.1]) ["id1", "id2"] "ep" []
        = .ok ([("ep&comment=id1" : String), "ep&comment=id2"],
               ["ep&comment=id1", "ep&comment=id2"]) :=
  ⟨rfl, rfl, rfl⟩

/-- C7: whenever a comment page's children include a `more`-kind
placeholder, the expansion step of `_process_post_comments` fails at
runtime with a `NameError` on the unbound `session`/`endpoint` names
instead of issuing supplementary requests (the model issues none: no
transport is even reachable from this function). -/
theorem process_post_comments_unbound_names_fail {α : Type} (sanitiseComment : PyDict → α)
    (children : List PyDict) (item : PyDict) (hmem : item ∈ children)
    (hkind : saniKind item = some "more") :
    processPostComments sanitiseComment children = .error (.nameError "session") := by
  have hkey : "kind" ∈ item.keys := entriesLookup_mem_keys hkind
  have hne : (commentsPartition sanitiseComment children).2 ≠ [] := by
    rw [commentsPartition, commentsPartition_snd]
    intro habs
    simp at habs
    have hkeys := habs item hmem hkind
    rw [hkeys] at hkey
    simp at hkey
  rw [processPostComments]
  simp only [List.isEmpty_iff]
  rw [if_neg hne]

/-- C7 witness: a page whose single child is a `more` placeholder. -/
theorem process_post_comments_unbound_names_fail_witness :
    processPostComments (fun d => d) [moreChild] = .error (.nameError "session") :=
  process_post_comments_unbound_names_fail (fun d => d) [moreChild] moreChild
    (List.mem_singleton.mpr rfl) rfl

/-- C8: with `is_post_comments` true and a positive limit, every
iteration leaves `all_items` empty and `last_item_id` absent, never
sleeps, and re-issues a request to the unchanged base endpoint, so the
loop runs out of any amount of fuel without reaching either normal
termination condition. -/
theorem paginate_post_comments_never_terminates {ε ρ α : Type} (env : PagEnv ε ρ α)
    (pg : Nat → ρ) (endpoint : String) (limit : Nat)
    (hpos : 0 < limit)
    (htr : ∀ i, env.transport i endpoint = .ok (pg i)) :
    ∀ fuel, paginateItems env endpoint limit true fuel
      = .fuelOut ⟨[], none, fuel, 0, List.replicate fuel endpoint, []⟩ := by
  intro fuel
  rw [paginateItems]
  simpa [initState] using paginateLoop_post_comments env endpoint limit pg hpos htr fuel 0

/-- C8 witness: three fuel units of the comments branch on a concrete
environment issue three base-endpoint requests and accumulate
nothing. -/
theorem paginate_post_comments_never_terminates_witness :
    paginateItems wEnv "ep" 1 true 3
      = .fuelOut ⟨[], none, 3, 0, List.replicate 3 "ep", []⟩ :=
  paginate_post_comments_never_terminates wEnv wPage "ep" 1 (by decide) (fun i => rfl) 3

/-- C9: when a page delivers items but no extractable cursor while the
limit is not yet reached, the loop overwrites the previous cursor with
the absent value and continues: the next request is the bare base
endpoint, exactly as the first request was, re-requesting the first
page rather than terminating or reusing the previous cursor. -/
theorem paginate_missing_cursor_rerequests_base {ε ρ α : Type} (env : PagEnv ε ρ α)
    (endpoint : String) (limit : Nat) (p1 p2 p3 : ρ) (xs1 xs2 : List α) (c : String)
    (h0 : env.transport 0 endpoint = .ok p1)
    (h0i : env.sanitiser p1 = xs1)
    (h0ne : xs1 ≠ [])
    (h0c : env.paginationId p1 = some c)
    (hcne : c ≠ "")
    (h1 : env.transport 1
        (endpoint ++ "?after=" ++ c ++ "&count=" ++ toString xs1.length) = .ok p2)
    (h1i : env.sanitiser p2 = xs2)
    (h1ne : xs2 ≠ [])
    (h1c : env.paginationId p2 = none)
    (hsum : xs1.length + xs2.length < limit)
    (h2 : env.transport 2 endpoint = .ok p3) :
    (paginateItems env endpoint limit false 2
      = .fuelOut ⟨xs1 ++ xs2, none, 2, 2,
          [endpoint, endpoint ++ "?after=" ++ c ++ "&count=" ++ toString xs1.length],
          [randint 1 5 (env.rng 0), randint 1 5 (env.rng 1)]⟩)
    ∧ ((paginateItems env endpoint limit false 3).state).requests
        = [endpoint, endpoint ++ "?after=" ++ c ++ "&count=" ++ toString xs1.length,
           endpoint] := by
  have hx1 : 0 < xs1.length := List.length_pos.mpr h0ne
  have hx2 : 0 < xs2.length := List.length_pos.mpr h1ne
  have step1 : ∀ f, paginateLoop env endpoint limit false (f + 1) (initState α)
      = paginateLoop env endpoint limit false f
          ⟨xs1, some c, 1, 1, [endpoint], [randint 1 5 (env.rng 0)]⟩ := by
    intro f
    rw [paginateLoop_succ_eq]
    simp only [initState, List.length_nil]
    rw [if_pos (by omega)]
    rw [show buildRequest endpoint none 0 = endpoint from rfl]
    rw [h0]
    simp only [Bool.false_eq_true, if_false, h0i]
    rw [if_neg (by simpa [List.isEmpty_iff] using h0ne)]
    rw [Nat.sub_zero, List.take_of_length_le (by omega), List.nil_append]
    rw [if_neg (by simp; omega)]
    rw [h0c]
    simp
  have step2 : ∀ f, paginateLoop env endpoint limit false (f + 1)
        ⟨xs1, some c, 1, 1, [endpoint], [randint 1 5 (env.rng 0)]⟩
      = paginateLoop env endpoint limit false f
          ⟨xs1 ++ xs2, none, 2, 2,
           [endpoint, endpoint ++ "?after=" ++ c ++ "&count=" ++ toString xs1.length],
           [randint 1 5 (env.rng 0), randint 1 5 (env.rng 1)]⟩ := by
    intro f
    rw [paginateLoop_succ_eq]
    simp only
    rw [if_pos (by omega)]
    rw [show buildRequest endpoint (some c) xs1.length
          = endpoint ++ "?after=" ++ c ++ "&count=" ++ toString xs1.length by
        simp [buildRequest, pyTruthy, beq_eq_false_iff_ne, hcne]]
    rw [h1]
    simp only [Bool.false_eq_true, if_false, h1i]
    rw [if_neg (by simpa [List.isEmpty_iff] using h1ne)]
    rw [List.take_of_length_le (by omega)]
    rw [if_neg (by simp; omega)]
    rw [h1c]
    simp
  constructor
  · rw [paginateItems, show (2 : Nat) = 1 + 1 from rfl, step1 1, step2 0]
    simp [paginateLoop]
  · rw [paginateItems, show (3 : Nat) = 2 + 1 from rfl, step1 2]
    rw [show (2 : Nat) = 1 + 1 from rfl, step2 1]
    rw [paginateLoop_succ_eq]
    simp only
    rw [if_pos (by simp; omega)]
    rw [show buildRequest endpoint none (xs1 ++ xs2).length = endpoint from rfl]
    rw [h2]
    simp only [Bool.false_eq_true, if_false]
    split
    · simp [PagOutcome.state]
    · split
      · simp [PagOutcome.state]
      · simp [paginateLoop, PagOutcome.state]

/-- C9 witness: a concrete run whose first page carries cursor `c1` and
whose second page has none; the third request goes back to the bare
base endpoint. -/
theorem paginate_missing_cursor_rerequests_base_witness :
    (paginateItems w4Env "ep" 5 false 2
      = .fuelOut ⟨[1, 2], none, 2, 2, ["ep", "ep?after=c1&count=1"], [1, 1]⟩)
    ∧ ((paginateItems w4Env "ep" 5 false 3).state).requests
        = ["ep", "ep?after=c1&count=1", "ep"] :=
  paginate_missing_cursor_rerequests_base w4Env "ep" 5
    ⟨[1], some "c1"⟩ ⟨[2], none⟩ ⟨[3], some "x"⟩ [1] [2] "c1"
    rfl rfl (by decide) rfl (by decide) rfl rfl (by decide) rfl (by decide) rfl

/-- C10: every inter-page backoff duration drawn by `_paginate_items`
lies in `[1, 5]` inclusive; and against the deterministic centisecond
clock the countdown emits one text per 10 ms tick until the deadline
elapses and then stops, each emission carrying the items fetched so
far, the overall requested count, and the remaining time with a
two-digit fractional-second field. -/
theorem backoff_range_and_countdown_ticks :
    (∀ (ε ρ α : Type) (env : PagEnv ε ρ α) (endpoint : String) (limit : Nat) (b : Bool)
        (fuel d : Nat),
        d ∈ ((paginateItems env endpoint limit b fuel).state).durations → 1 ≤ d ∧ d ≤ 5)
    ∧ (∀ duration current overall : Nat,
        (paginationCountdownTimer duration current overall).length = duration * 100)
    ∧ (∀ duration current overall : Nat,
        ∀ s ∈ paginationCountdownTimer duration current overall,
        ∃ j, 0 < j ∧ j ≤ duration * 100
          ∧ s = countdownText current overall (j / 100) (j % 100)
          ∧ (toString current).data <:+: s.data
          ∧ (toString overall).data <:+: s.data
          ∧ (toString (j / 100) ++ "." ++ fmt2 (j % 100)).data <:+: s.data)
    ∧ (∀ n, n < 100 → (fmt2 n).length = 2) := by
  refine ⟨?_, ?_, ?_, fmt2_two_digits⟩
  · intro ε ρ α env endpoint limit b fuel d hd
    exact paginateLoop_durations_range env endpoint limit b fuel (initState α)
      (by simp [initState]) d hd
  · intro duration current overall
    exact countdownTicks_length current overall (duration * 100)
  · intro duration current overall s hs
    obtain ⟨j, hj0, hjr, hs'⟩ := countdownTicks_mem current overall (duration * 100) s hs
    obtain ⟨h1, h2, h3⟩ := countdownText_contains current overall (j / 100) (j % 100)
    exact ⟨j, hj0, hjr, hs',
      by rw [hs']; exact h1, by rw [hs']; exact h2, by rw [hs']; exact h3⟩

/-- C10 witness: a backoff drawn in a concrete run lies in range, a
one-second wait ticks one hundred times, the first emission is the
countdown text for the full remaining second, and the fractional field
prints two digits. -/
theorem backoff_range_and_countdown_ticks_witness :
    ((1 : Nat) ≤ 1 ∧ (1 : Nat) ≤ 5)
    ∧ (paginationCountdownTimer 1 2 5).length = 1 * 100
    ∧ (∃ j, 0 < j ∧ j ≤ 1 * 100
        ∧ countdownText 2 5 1 0 = countdownText 2 5 (j / 100) (j % 100)
        ∧ (toString 2).data <:+: (countdownText 2 5 1 0).data
        ∧ (toString 5).data <:+: (countdownText 2 5 1 0).data
        ∧ (toString (j / 100) ++ "." ++ fmt2 (j % 100)).data
            <:+: (countdownText 2 5 1 0).data)
    ∧ (fmt2 99).length = 2 := by
  have h := backoff_range_and_countdown_ticks
  refine ⟨h.1 Unit RawPage Nat wEnv "ep" 3 false 5 1 (by decide),
    h.2.1 1 2 5,
    h.2.2.1 1 2 5 (countdownText 2 5 1 0) ?_,
    h.2.2.2 99 (by decide)⟩
  rw [show paginationCountdownTimer 1 2 5
        = countdownText 2 5 1 0 :: countdownTicks 2 5 99 from rfl]
  exact List.mem_cons_self _ _
